import Mathlib

/-!
Verification of the metadata registry and two-pass router-assembly algorithm of
`express-decorated-router` (src/ExpressDecoratedRouter.ts).

The embedding is a shallow one:

* Controller classes, request handlers, path patterns and HTTP method names are
  opaque identity tokens, modelled as `Nat`.
* The six process-wide tables (`routeMap`, `controllerMap`,
  `controllerMiddlewareMap`, `routeMiddlewareMap`, `routerMap`, `parentMap`)
  are insertion-ordered association lists with JS `Map.set`/`Map.get`
  semantics (`mapSet` updates in place when the key exists, appends
  otherwise), collected in a `Registry` record.
* Live Express routers are identified by `RId` tokens: `RId.app` is the
  externally supplied application router, `RId.fresh n` the n-th router
  created by `createRouter` during an `applyRoutes` run.
* Every call made on a router (`use`, path-scoped `use`, per-method handler
  registration, mounting a sub-router) is recorded as an `Event`, in call
  order, so that registration ordering is observable in the model.
* `applyRoutes` is the two-pass assembly: pass 1 iterates `controllerMap`
  (`processController`), pass 2 iterates `parentMap` (`processParents`);
  the two thrown error classes are the two constructors of `Err` plus a
  third constructor modelling the unchecked `controllerMap.get(child)` cast
  blowing up at `.root` when the entry is absent.
-/

namespace EDR

/-- Controller identity token (the controller class in the source). -/
abbrev Ctrl := Nat

/-- Handler identity token (a `RequestHandler` function in the source). -/
abbrev Handler := Nat

/-- Path pattern token (`PathParams` in the source, treated as opaque). -/
abbrev Path := Nat

/-- HTTP method name token (the string key of a `RouteSpec`). -/
abbrev Method := Nat

/-- Router construction options (`RouterOptions`), treated as opaque. -/
abbrev RouterOptions := Nat

/-- Lookup in an insertion-ordered association list, as JS `Map.get` /
object indexing: returns the value of the first (hence only) entry for the
key, or `none`. -/
def mapGet {α β : Type} [DecidableEq α] : List (α × β) → α → Option β
  | [], _ => none
  | (k, v) :: rest, k' => if k = k' then some v else mapGet rest k'

/-- Insertion into an insertion-ordered association list, as JS `Map.set` /
object assignment: updates the entry in place when the key exists, appends a
new entry at the end otherwise. -/
def mapSet {α β : Type} [DecidableEq α] : List (α × β) → α → β → List (α × β)
  | [], k, v => [(k, v)]
  | (k', v') :: rest, k, v =>
      if k' = k then (k, v) :: rest else (k', v') :: mapSet rest k v

/-- Number of entries of an association list carrying a given key. -/
def keysCount {α β : Type} [DecidableEq α] : List (α × β) → α → Nat
  | [], _ => 0
  | (k', _) :: rest, k => (if k' = k then 1 else 0) + keysCount rest k

/-- Shorthand for a path to request handler map (`HttpMethodSpec`). -/
abbrev HttpMethodSpec := List (Path × Handler)

/-- A route spec where HTTP methods are mapped to `HttpMethodSpec`s; a plain
JS object whose string keys preserve insertion order. -/
abbrev RouteSpec := List (Method × HttpMethodSpec)

/-- Controller definition: root path plus options for `express.Router()`. -/
structure ControllerSpec where
  root : Path
  opts : Option RouterOptions
deriving DecidableEq, Repr

/-- Identity of a live router object. -/
inductive RId where
  /-- The externally supplied application router (`app`). -/
  | app : RId
  /-- The n-th router produced by `createRouter` during an assembly run. -/
  | fresh : Nat → RId
deriving DecidableEq, Repr

/-- The six process-wide registry tables of `ExpressDecoratedRouter`. -/
structure Registry where
  /-- key = controller class -/
  routeMap : List (Ctrl × RouteSpec)
  /-- key = controller class -/
  controllerMap : List (Ctrl × ControllerSpec)
  /-- key = controller class -/
  controllerMiddlewareMap : List (Ctrl × List Handler)
  /-- key = class method -/
  routeMiddlewareMap : List (Handler × List Handler)
  /-- key = controller class, value = live router -/
  routerMap : List (Ctrl × RId)
  /-- key = child, value = parent -/
  parentMap : List (Ctrl × Ctrl)
deriving DecidableEq, Repr

/-- The empty registry: all six tables empty. -/
def Registry.empty : Registry :=
  { routeMap := [], controllerMap := [], controllerMiddlewareMap := [],
    routeMiddlewareMap := [], routerMap := [], parentMap := [] }

/-- One call made on a live router during assembly, in call order. -/
inductive Event where
  /-- `createRouter(opts)` producing the given router. -/
  | create : RId → Option RouterOptions → Event
  /-- `router.use(middleware)`: middleware global to the router. -/
  | use : RId → List Handler → Event
  /-- `router.use(path, middleware)`: middleware scoped to a path. -/
  | usePath : RId → Path → List Handler → Event
  /-- `router[httpMethod](path, handler)`: handler registration. -/
  | handle : RId → Method → Path → Handler → Event
  /-- `target.use(path, router)`: mounting a sub-router at a path. -/
  | mount : RId → Path → RId → Event
deriving DecidableEq, Repr

/-- Errors thrown by `applyRoutes`. -/
inductive Err where
  /-- `ParentControllerError(child, parent)`: the parent has no router. -/
  | parentController : Ctrl → Ctrl → Err
  /-- `UnregisteredControllerError(child)`: the child has no router. -/
  | unregisteredController : Ctrl → Err
  /-- Models the runtime `TypeError` that the unchecked cast
  `<ControllerSpec>controllerMap.get(child)` in `processParents` would cause
  when the entry is absent and `.root` is read off `undefined`. -/
  | missingControllerSpec : Ctrl → Err
deriving DecidableEq, Repr

/-- State threaded through pass 1 of `applyRoutes`: the (mutated) router
table, the fresh-router counter, and the events emitted so far. -/
structure P1State where
  routerMap : List (Ctrl × RId)
  next : Nat
  events : List Event
deriving DecidableEq, Repr

/-- Register a `@Controller` decoration (`addController`). -/
def addController (reg : Registry) (clazz : Ctrl) (root : Path)
    (opts : Option RouterOptions) : Registry :=
  { reg with controllerMap := mapSet reg.controllerMap clazz ⟨root, opts⟩ }

/-- Register a `@ControllerMiddleware` decoration (`addControllerMiddleware`). -/
def addControllerMiddleware (reg : Registry) (clazz : Ctrl)
    (middleware : List Handler) : Registry :=
  { reg with controllerMiddlewareMap := mapSet reg.controllerMiddlewareMap clazz middleware }

/-- Register a `@Parent` decoration (`addParent`). -/
def addParent (reg : Registry) (child parent : Ctrl) : Registry :=
  { reg with parentMap := mapSet reg.parentMap child parent }

/-- Register a route decoration (`addRoute`): fetch-or-create the controller's
route spec, fetch-or-create the method's path map, then set path → handler.
The source mutates the nested objects in place; the functional rendering
writes the updated spec back, which yields the same final table. -/
def addRoute (reg : Registry) (clazz : Ctrl) (httpMethod : Method)
    (path : Path) (handler : Handler) : Registry :=
  let routeSpec : RouteSpec :=
    match mapGet reg.routeMap clazz with
    | none => []
    | some rs => rs
  let httpMethodSpec : HttpMethodSpec :=
    match mapGet routeSpec httpMethod with
    | none => []
    | some ms => ms
  let routeSpec' := mapSet routeSpec httpMethod (mapSet httpMethodSpec path handler)
  { reg with routeMap := mapSet reg.routeMap clazz routeSpec' }

/-- Register a `@RouteMiddleware` decoration (`addRouteMiddleware`). -/
def addRouteMiddleware (reg : Registry) (route : Handler)
    (middleware : List Handler) : Registry :=
  { reg with routeMiddlewareMap := mapSet reg.routeMiddlewareMap route middleware }

/-- Reset the library (`reset`): clear all six tables. -/
def reset (_reg : Registry) : Registry := Registry.empty

/-- Lookup of the handler registered for a controller, method and path. -/
def routeLookup (reg : Registry) (clazz : Ctrl) (httpMethod : Method)
    (path : Path) : Option Handler :=
  match mapGet reg.routeMap clazz with
  | none => none
  | some rs =>
    match mapGet rs httpMethod with
    | none => none
    | some ms => mapGet ms path

/-- Events of `processControllerMiddleware`: when the table has an entry for
the controller (even an empty one), `router.use(middleware)` is called. -/
def processControllerMiddleware (reg : Registry) (router : RId)
    (controller : Ctrl) : List Event :=
  match mapGet reg.controllerMiddlewareMap controller with
  | some middleware => [Event.use router middleware]
  | none => []

/-- Events of `processRouteMiddleware`: `router.use(path, middleware)` only
when middleware is present and non-empty. -/
def processRouteMiddleware (router : RId) (pathParams : Path) :
    Option (List Handler) → List Event
  | some middleware =>
      if middleware = [] then [] else [Event.usePath router pathParams middleware]
  | none => []

/-- Events of `processHttpMethodSpec`: route middleware (if any) scoped to the
path, then the handler for the method and path. -/
def processHttpMethodSpec (reg : Registry) (router : RId) (pathParams : Path)
    (requestHandler : Handler) (httpMethod : Method) : List Event :=
  processRouteMiddleware router pathParams (mapGet reg.routeMiddlewareMap requestHandler)
    ++ [Event.handle router httpMethod pathParams requestHandler]

/-- Events of `processRouteSpec`: iterate the method's path map in insertion
order. -/
def processRouteSpec (reg : Registry) (router : RId) (httpMethod : Method) :
    HttpMethodSpec → List Event
  | [] => []
  | (pathParams, requestHandler) :: rest =>
      processHttpMethodSpec reg router pathParams requestHandler httpMethod
        ++ processRouteSpec reg router httpMethod rest

/-- Events of the `forEach` over a route spec's HTTP methods in
`processController`, in insertion order. -/
def routeSpecEvents (reg : Registry) (router : RId) : RouteSpec → List Event
  | [] => []
  | (httpMethod, httpMethodSpec) :: rest =>
      processRouteSpec reg router httpMethod httpMethodSpec
        ++ routeSpecEvents reg router rest

/-- One step of pass 1 (`processController`): skip when the controller has no
route spec or an empty one; otherwise create a router, attach controller
middleware, register all routes, record the router, and mount it on the app
unless the controller has a parent entry. -/
def processController (reg : Registry) (st : P1State) (controller : Ctrl)
    (controllerSpec : ControllerSpec) : P1State :=
  match mapGet reg.routeMap controller with
  | none => st
  | some routeSpec =>
    if routeSpec = [] then st
    else
      let router := RId.fresh st.next
      let evs :=
        Event.create router controllerSpec.opts ::
          (processControllerMiddleware reg router controller
            ++ routeSpecEvents reg router routeSpec
            ++ (if (mapGet reg.parentMap controller).isSome then []
                else [Event.mount RId.app controllerSpec.root router]))
      { routerMap := mapSet st.routerMap controller router,
        next := st.next + 1,
        events := st.events ++ evs }

/-- Pass 1 of `applyRoutes`: iterate the controller table entries in order. -/
def pass1 (reg : Registry) : List (Ctrl × ControllerSpec) → P1State → P1State
  | [], st => st
  | (controller, controllerSpec) :: rest, st =>
      pass1 reg rest (processController reg st controller controllerSpec)

/-- One step of pass 2 (`processParents`): resolve the parent router (else
`ParentControllerError`), then the child router (else
`UnregisteredControllerError`), then transfer non-empty parent middleware to
the child router and mount the child under the parent at the child's root. -/
def processParents (reg : Registry) (routerMap : List (Ctrl × RId))
    (child parent : Ctrl) : Except Err (List Event) :=
  match mapGet routerMap parent with
  | none => Except.error (Err.parentController child parent)
  | some parentRouter =>
    match mapGet routerMap child with
    | none => Except.error (Err.unregisteredController child)
    | some childRouter =>
      match mapGet reg.controllerMap child with
      | none => Except.error (Err.missingControllerSpec child)
      | some childSpec =>
        let mwEvents :=
          match mapGet reg.controllerMiddlewareMap parent with
          | some middleware =>
              if middleware = [] then [] else [Event.use childRouter middleware]
          | none => []
        Except.ok (mwEvents ++ [Event.mount parentRouter childSpec.root childRouter])

/-- Pass 2 of `applyRoutes`: iterate the parent table entries in order,
propagating the first error without processing further pairs. -/
def pass2 (reg : Registry) (routerMap : List (Ctrl × RId)) :
    List (Ctrl × Ctrl) → Except Err (List Event)
  | [] => Except.ok []
  | (child, parent) :: rest =>
    match processParents reg routerMap child parent with
    | Except.error e => Except.error e
    | Except.ok evs =>
      match pass2 reg routerMap rest with
      | Except.error e => Except.error e
      | Except.ok evs' => Except.ok (evs ++ evs')

/-- Apply routes to the Express application (`applyRoutes`): pass 1 over the
controller table, then pass 2 over the parent table. On success, returns the
registry with the updated router table together with the full trace of router
calls, in order. -/
def applyRoutes (reg : Registry) : Except Err (Registry × List Event) :=
  let st1 := pass1 reg reg.controllerMap
    { routerMap := reg.routerMap, next := 0, events := [] }
  match pass2 reg st1.routerMap reg.parentMap with
  | Except.error e => Except.error e
  | Except.ok evs => Except.ok ({ reg with routerMap := st1.routerMap }, st1.events ++ evs)

/-- One registration call, for stating laws over whole registration cycles. -/
inductive RegOp where
  | controller : Ctrl → Path → Option RouterOptions → RegOp
  | controllerMiddleware : Ctrl → List Handler → RegOp
  | parent : Ctrl → Ctrl → RegOp
  | route : Ctrl → Method → Path → Handler → RegOp
  | routeMiddleware : Handler → List Handler → RegOp
deriving DecidableEq, Repr

/-- Apply one registration call to the registry. -/
def applyOp (reg : Registry) : RegOp → Registry
  | RegOp.controller clazz root opts => addController reg clazz root opts
  | RegOp.controllerMiddleware clazz mws => addControllerMiddleware reg clazz mws
  | RegOp.parent child parent => addParent reg child parent
  | RegOp.route clazz m p h => addRoute reg clazz m p h
  | RegOp.routeMiddleware h mws => addRouteMiddleware reg h mws

/-- Apply a sequence of registration calls in order. -/
def applyOps (ops : List RegOp) (reg : Registry) : Registry :=
  ops.foldl applyOp reg

/-- Every table of the registry has at most one entry per key. -/
def keysUnique (reg : Registry) : Prop :=
  (∀ k, keysCount reg.routeMap k ≤ 1) ∧
  (∀ k, keysCount reg.controllerMap k ≤ 1) ∧
  (∀ k, keysCount reg.controllerMiddlewareMap k ≤ 1) ∧
  (∀ k, keysCount reg.routeMiddlewareMap k ≤ 1) ∧
  (∀ k, keysCount reg.routerMap k ≤ 1) ∧
  (∀ k, keysCount reg.parentMap k ≤ 1)

section MapLemmas

variable {α β : Type} [DecidableEq α]

theorem mapGet_mapSet_self (m : List (α × β)) (k : α) (v : β) :
    mapGet (mapSet m k v) k = some v := by
  induction m with
  | nil => simp [mapSet, mapGet]
  | cons e rest ih =>
    obtain ⟨k', v'⟩ := e
    by_cases h : k' = k
    · subst h; simp [mapSet, mapGet]
    · simp [mapSet, mapGet, h, ih]

theorem mapGet_mapSet_ne (m : List (α × β)) (k k' : α) (v : β) (h : k' ≠ k) :
    mapGet (mapSet m k v) k' = mapGet m k' := by
  induction m with
  | nil => simp [mapSet, mapGet, Ne.symm h]
  | cons e rest ih =>
    obtain ⟨k₀, v₀⟩ := e
    by_cases h₀ : k₀ = k
    · subst h₀; simp [mapSet, mapGet, Ne.symm h]
    · simp [mapSet, mapGet, h₀, ih]

theorem mapSet_mapSet (m : List (α × β)) (k : α) (v v' : β) :
    mapSet (mapSet m k v) k v' = mapSet m k v' := by
  induction m with
  | nil => simp [mapSet]
  | cons e rest ih =>
    obtain ⟨k₀, v₀⟩ := e
    by_cases h : k₀ = k
    · subst h; simp [mapSet]
    · simp [mapSet, h, ih]

theorem mapGet_isSome_of_mem (m : List (α × β)) (k : α) (v : β) (h : (k, v) ∈ m) :
    (mapGet m k).isSome := by
  induction m with
  | nil => cases h
  | cons e rest ih =>
    obtain ⟨k₀, v₀⟩ := e
    rcases List.mem_cons.mp h with h₁ | h₂
    · obtain ⟨hk, -⟩ := Prod.mk.injEq .. ▸ h₁
      simp [mapGet, hk.symm]
    · by_cases hk : k₀ = k
      · simp [mapGet, hk]
      · simpa [mapGet, hk] using ih h₂

theorem mapGet_isSome_mapSet (m : List (α × β)) (k c : α) (v : β)
    (h : (mapGet (mapSet m k v) c).isSome) : c = k ∨ (mapGet m c).isSome := by
  by_cases hck : c = k
  · exact Or.inl hck
  · right; rwa [mapGet_mapSet_ne m k c v hck] at h

theorem keysCount_mapSet (m : List (α × β)) (k k' : α) (v : β) :
    keysCount (mapSet m k v) k' =
      if k' = k then max 1 (keysCount m k) else keysCount m k' := by
  induction m with
  | nil =>
    by_cases h : k' = k
    · subst h; simp [mapSet, keysCount]
    · simp [mapSet, keysCount, h, Ne.symm h]
  | cons e rest ih =>
    obtain ⟨k₀, v₀⟩ := e
    by_cases h₀ : k₀ = k
    · subst h₀
      by_cases h : k' = k₀
      · subst h; simp [mapSet, keysCount]
      · simp [mapSet, keysCount, h, Ne.symm h]
    · by_cases h : k' = k
      · subst h
        simp [mapSet, keysCount, h₀, ih]
      · simp [mapSet, keysCount, h₀, ih, h]

theorem keysCount_mapSet_le (m : List (α × β)) (k k' : α) (v : β)
    (h : keysCount m k' ≤ 1) : keysCount (mapSet m k v) k' ≤ 1 := by
  rw [keysCount_mapSet]
  by_cases hk : k' = k
  · subst hk
    simp only [eq_self_iff_true, if_true]
    omega
  · simpa [hk] using h

end MapLemmas

theorem keysUnique_empty : keysUnique Registry.empty := by
  refine ⟨?_, ?_, ?_, ?_, ?_, ?_⟩ <;> intro k <;> simp [Registry.empty, keysCount]

theorem keysUnique_applyOp (reg : Registry) (op : RegOp) (h : keysUnique reg) :
    keysUnique (applyOp reg op) := by
  obtain ⟨h₁, h₂, h₃, h₄, h₅, h₆⟩ := h
  cases op with
  | controller c root opts =>
    exact ⟨h₁, fun k => keysCount_mapSet_le _ _ _ _ (h₂ k), h₃, h₄, h₅, h₆⟩
  | controllerMiddleware c mws =>
    exact ⟨h₁, h₂, fun k => keysCount_mapSet_le _ _ _ _ (h₃ k), h₄, h₅, h₆⟩
  | parent child parent =>
    exact ⟨h₁, h₂, h₃, h₄, h₅, fun k => keysCount_mapSet_le _ _ _ _ (h₆ k)⟩
  | route c m p hd =>
    exact ⟨fun k => keysCount_mapSet_le _ _ _ _ (h₁ k), h₂, h₃, h₄, h₅, h₆⟩
  | routeMiddleware hd mws =>
    exact ⟨h₁, h₂, h₃, fun k => keysCount_mapSet_le _ _ _ _ (h₄ k), h₅, h₆⟩

theorem keysUnique_applyOps (ops : List RegOp) (reg : Registry)
    (h : keysUnique reg) : keysUnique (applyOps ops reg) := by
  induction ops generalizing reg with
  | nil => exact h
  | cons op rest ih => exact ih _ (keysUnique_applyOp reg op h)

theorem addRoute_addRoute (reg : Registry) (c : Ctrl) (m : Method) (p : Path)
    (h₁ h₂ : Handler) :
    addRoute (addRoute reg c m p h₁) c m p h₂ = addRoute reg c m p h₂ := by
  unfold addRoute
  cases hrs : mapGet reg.routeMap c with
  | none => simp [mapGet, mapGet_mapSet_self, mapSet_mapSet]
  | some rs =>
    cases hms : mapGet rs m with
    | none => simp [hrs, hms, mapGet_mapSet_self, mapSet_mapSet]
    | some ms => simp [hrs, hms, mapGet_mapSet_self, mapSet_mapSet]

theorem routeLookup_addRoute (reg : Registry) (c : Ctrl) (m : Method) (p : Path)
    (h : Handler) : routeLookup (addRoute reg c m p h) c m p = some h := by
  unfold routeLookup addRoute
  cases hrs : mapGet reg.routeMap c with
  | none => simp [mapGet_mapSet_self]
  | some rs =>
    cases hms : mapGet rs m with
    | none => simp [hrs, hms, mapGet_mapSet_self]
    | some ms => simp [hrs, hms, mapGet_mapSet_self]

theorem mem_processRouteMiddleware (router : RId) (p : Path)
    (o : Option (List Handler)) (e : Event)
    (h : e ∈ processRouteMiddleware router p o) :
    ∃ mws, e = Event.usePath router p mws := by
  cases o with
  | none => cases h
  | some mws =>
    by_cases hm : mws = []
    · simp [processRouteMiddleware, hm] at h
    · simp [processRouteMiddleware, hm] at h
      exact ⟨mws, h⟩

theorem mem_processRouteSpec (reg : Registry) (router : RId) (m : Method)
    (ms : HttpMethodSpec) (e : Event) (h : e ∈ processRouteSpec reg router m ms) :
    (∃ p mws, e = Event.usePath router p mws) ∨
    (∃ p hd, e = Event.handle router m p hd) := by
  induction ms with
  | nil => cases h
  | cons pe rest ih =>
    obtain ⟨p, hd⟩ := pe
    rw [processRouteSpec] at h
    rcases List.mem_append.mp h with h₁ | h₂
    · rw [processHttpMethodSpec] at h₁
      rcases List.mem_append.mp h₁ with h₃ | h₄
      · rcases mem_processRouteMiddleware router p _ e h₃ with ⟨mws, rfl⟩
        exact Or.inl ⟨p, mws, rfl⟩
      · rw [List.mem_singleton.mp h₄]
        exact Or.inr ⟨p, hd, rfl⟩
    · exact ih h₂

theorem mem_routeSpecEvents (reg : Registry) (router : RId) (rs : RouteSpec)
    (e : Event) (h : e ∈ routeSpecEvents reg router rs) :
    (∃ p mws, e = Event.usePath router p mws) ∨
    (∃ m p hd, e = Event.handle router m p hd) := by
  induction rs with
  | nil => cases h
  | cons entry rest ih =>
    obtain ⟨m, ms⟩ := entry
    rw [routeSpecEvents] at h
    rcases List.mem_append.mp h with h₁ | h₂
    · rcases mem_processRouteSpec reg router m ms e h₁ with ⟨p, mws, rfl⟩ | ⟨p, hd, rfl⟩
      · exact Or.inl ⟨p, mws, rfl⟩
      · exact Or.inr ⟨m, p, hd, rfl⟩
    · exact ih h₂

theorem mem_processControllerMiddleware (reg : Registry) (router : RId)
    (c : Ctrl) (e : Event) (h : e ∈ processControllerMiddleware reg router c) :
    ∃ mws, mapGet reg.controllerMiddlewareMap c = some mws ∧ e = Event.use router mws := by
  unfold processControllerMiddleware at h
  cases hm : mapGet reg.controllerMiddlewareMap c with
  | none => rw [hm] at h; cases h
  | some mws =>
    rw [hm] at h
    exact ⟨mws, rfl, List.mem_singleton.mp h⟩

theorem processController_skip (reg : Registry) (st : P1State) (c : Ctrl)
    (spec : ControllerSpec)
    (h : mapGet reg.routeMap c = none ∨ mapGet reg.routeMap c = some []) :
    processController reg st c spec = st := by
  rcases h with h | h <;> simp [processController, h]

theorem processController_routerMap_ne (reg : Registry) (st : P1State)
    (c' : Ctrl) (spec' : ControllerSpec) (c : Ctrl) (h : c ≠ c') :
    mapGet (processController reg st c' spec').routerMap c = mapGet st.routerMap c := by
  unfold processController
  cases hrs : mapGet reg.routeMap c' with
  | none => rfl
  | some rs =>
    by_cases hE : rs = []
    · simp [hE]
    · simp [hE, mapGet_mapSet_ne _ _ _ _ h]

theorem pass1_routerMap_skip (reg : Registry) (c : Ctrl)
    (hskip : mapGet reg.routeMap c = none ∨ mapGet reg.routeMap c = some []) :
    ∀ (entries : List (Ctrl × ControllerSpec)) (st : P1State),
      mapGet (pass1 reg entries st).routerMap c = mapGet st.routerMap c := by
  intro entries
  induction entries with
  | nil => intro st; rfl
  | cons ent rest ih =>
    intro st
    obtain ⟨c', spec'⟩ := ent
    rw [pass1, ih]
    by_cases h : c = c'
    · subst h; rw [processController_skip reg st c spec' hskip]
    · exact processController_routerMap_ne reg st c' spec' c h

theorem processController_inv (reg : Registry) (st : P1State) (c : Ctrl)
    (spec : ControllerSpec) (hc : (mapGet reg.controllerMap c).isSome)
    (hinv : ∀ k, (mapGet st.routerMap k).isSome → (mapGet reg.controllerMap k).isSome) :
    ∀ k, (mapGet (processController reg st c spec).routerMap k).isSome →
      (mapGet reg.controllerMap k).isSome := by
  intro k hk
  unfold processController at hk
  cases hrs : mapGet reg.routeMap c with
  | none => rw [hrs] at hk; exact hinv k hk
  | some rs =>
    rw [hrs] at hk
    by_cases hE : rs = []
    · simp only [hE, if_true] at hk
      exact hinv k hk
    · simp only [hE, if_neg hE] at hk
      rcases mapGet_isSome_mapSet _ _ _ _ hk with rfl | h'
      · exact hc
      · exact hinv k h'

theorem pass1_inv (reg : Registry) :
    ∀ (entries : List (Ctrl × ControllerSpec)) (st : P1State),
      (∀ e ∈ entries, (mapGet reg.controllerMap e.1).isSome) →
      (∀ k, (mapGet st.routerMap k).isSome → (mapGet reg.controllerMap k).isSome) →
      ∀ k, (mapGet (pass1 reg entries st).routerMap k).isSome →
        (mapGet reg.controllerMap k).isSome := by
  intro entries
  induction entries with
  | nil => intro st _ hinv k hk; exact hinv k hk
  | cons ent rest ih =>
    intro st hmem hinv
    obtain ⟨c', spec'⟩ := ent
    rw [pass1]
    refine ih _ (fun e he => hmem e (List.mem_cons_of_mem _ he)) ?_
    exact processController_inv reg st c' spec'
      (hmem (c', spec') (List.mem_cons_self _ _)) hinv

theorem processParents_no_missing (reg : Registry) (rm : List (Ctrl × RId))
    (child parent c : Ctrl)
    (hinv : ∀ k, (mapGet rm k).isSome → (mapGet reg.controllerMap k).isSome) :
    processParents reg rm child parent ≠ Except.error (Err.missingControllerSpec c) := by
  unfold processParents
  cases hp : mapGet rm parent with
  | none => simp
  | some pr =>
    cases hc : mapGet rm child with
    | none => simp
    | some cr =>
      cases hs : mapGet reg.controllerMap child with
      | none =>
        have hsome := hinv child (by rw [hc]; rfl)
        rw [hs] at hsome
        cases hsome
      | some spec => simp

theorem pass2_no_missing (reg : Registry) (rm : List (Ctrl × RId)) (c : Ctrl)
    (hinv : ∀ k, (mapGet rm k).isSome → (mapGet reg.controllerMap k).isSome) :
    ∀ pairs, pass2 reg rm pairs ≠ Except.error (Err.missingControllerSpec c) := by
  intro pairs
  induction pairs with
  | nil => simp [pass2]
  | cons pr rest ih =>
    obtain ⟨child, parent⟩ := pr
    rw [pass2]
    cases hpp : processParents reg rm child parent with
    | error e =>
      intro hcon
      have he : e = Err.missingControllerSpec c := by
        simpa using hcon
      exact processParents_no_missing reg rm child parent c hinv (he ▸ hpp)
    | ok evs =>
      cases hrec : pass2 reg rm rest with
      | error e =>
        intro hcon
        have he : e = Err.missingControllerSpec c := by
          simpa using hcon
        exact ih (he ▸ hrec)
      | ok evs' => simp

theorem applyRoutes_eq (reg : Registry) :
    applyRoutes reg =
      match pass2 reg (pass1 reg reg.controllerMap
          ⟨reg.routerMap, 0, []⟩).routerMap reg.parentMap with
      | Except.error e => Except.error e
      | Except.ok evs =>
          Except.ok ({ reg with routerMap := (pass1 reg reg.controllerMap
              ⟨reg.routerMap, 0, []⟩).routerMap },
            (pass1 reg reg.controllerMap ⟨reg.routerMap, 0, []⟩).events ++ evs) := rfl

theorem processRouteSpec_split (reg : Registry) (router : RId) (m : Method)
    (ms : HttpMethodSpec) (p : Path) (hd : Handler) (mws : List Handler)
    (hmem : (p, hd) ∈ ms)
    (hmw : mapGet reg.routeMiddlewareMap hd = some mws) (hne : mws ≠ []) :
    ∃ l₁ l₂, processRouteSpec reg router m ms =
      l₁ ++ Event.usePath router p mws :: Event.handle router m p hd :: l₂ := by
  induction ms with
  | nil => cases hmem
  | cons pe rest ih =>
    obtain ⟨p₀, h₀⟩ := pe
    rcases List.mem_cons.mp hmem with h₁ | h₂
    · cases h₁
      refine ⟨[], processRouteSpec reg router m rest, ?_⟩
      simp [processRouteSpec, processHttpMethodSpec, hmw, processRouteMiddleware, hne]
    · obtain ⟨l₁, l₂, heq⟩ := ih h₂
      refine ⟨processHttpMethodSpec reg router p₀ h₀ m ++ l₁, l₂, ?_⟩
      rw [processRouteSpec, heq]
      simp

theorem routeSpecEvents_split (reg : Registry) (router : RId) (rs : RouteSpec)
    (m : Method) (ms : HttpMethodSpec) (p : Path) (hd : Handler)
    (mws : List Handler) (hrs : (m, ms) ∈ rs) (hmem : (p, hd) ∈ ms)
    (hmw : mapGet reg.routeMiddlewareMap hd = some mws) (hne : mws ≠ []) :
    ∃ l₁ l₂, routeSpecEvents reg router rs =
      l₁ ++ Event.usePath router p mws :: Event.handle router m p hd :: l₂ := by
  induction rs with
  | nil => cases hrs
  | cons entry rest ih =>
    obtain ⟨m₀, ms₀⟩ := entry
    rcases List.mem_cons.mp hrs with h₁ | h₂
    · cases h₁
      obtain ⟨l₁, l₂, heq⟩ :=
        processRouteSpec_split reg router m ms p hd mws hmem hmw hne
      refine ⟨l₁, l₂ ++ routeSpecEvents reg router rest, ?_⟩
      rw [routeSpecEvents, heq]
      simp
    · obtain ⟨l₁, l₂, heq⟩ := ih h₂
      refine ⟨processRouteSpec reg router m₀ ms₀ ++ l₁, l₂, ?_⟩
      rw [routeSpecEvents, heq]
      simp

/-- C6: registering two handlers in sequence for the same (method, path) pair
on the same controller leaves the registry exactly as if only the second had
been registered, so the route table (and hence everything assembly does with
it) holds only the second handler: last registration wins, silently. -/
theorem addRoute_last_wins (reg : Registry) (c : Ctrl) (m : Method) (p : Path)
    (h₁ h₂ : Handler) :
    addRoute (addRoute reg c m p h₁) c m p h₂ = addRoute reg c m p h₂ ∧
    routeLookup (addRoute (addRoute reg c m p h₁) c m p h₂) c m p = some h₂ := by
  refine ⟨addRoute_addRoute reg c m p h₁ h₂, ?_⟩
  rw [addRoute_addRoute reg c m p h₁ h₂]
  exact routeLookup_addRoute reg c m p h₂

/-- C8: reset empties all six registry tables, is a no-op when they are
already empty, and a registration-plus-applyRoutes cycle run after a reset
behaves exactly like a first cycle started from the pristine registry: no
state leaks between cycles. -/
theorem reset_clears_and_no_leak :
    (∀ reg, reset reg = Registry.empty) ∧
    (reset Registry.empty = Registry.empty) ∧
    (∀ reg ops, applyRoutes (applyOps ops (reset reg)) =
      applyRoutes (applyOps ops Registry.empty)) := by
  exact ⟨fun _ => rfl, rfl, fun _ _ => rfl⟩

/-- C9: each registration operation is idempotent per key; addParent records
the relation without any referential check (no hypothesis about the parent
being a registered controller is needed, and the controller table is left
untouched); and any sequence of registration calls from the pristine registry
keeps at most one entry per key in every table. -/
theorem registration_idempotent_unvalidated :
    (∀ reg c r o, addController (addController reg c r o) c r o =
      addController reg c r o) ∧
    (∀ reg c mws, addControllerMiddleware (addControllerMiddleware reg c mws) c mws =
      addControllerMiddleware reg c mws) ∧
    (∀ reg ch pa, addParent (addParent reg ch pa) ch pa = addParent reg ch pa) ∧
    (∀ reg c m p hd, addRoute (addRoute reg c m p hd) c m p hd =
      addRoute reg c m p hd) ∧
    (∀ reg hd mws, addRouteMiddleware (addRouteMiddleware reg hd mws) hd mws =
      addRouteMiddleware reg hd mws) ∧
    (∀ reg ch pa, mapGet (addParent reg ch pa).parentMap ch = some pa ∧
      (addParent reg ch pa).controllerMap = reg.controllerMap) ∧
    (∀ ops, keysUnique (applyOps ops Registry.empty)) := by
  refine ⟨?_, ?_, ?_, ?_, ?_, ?_, ?_⟩
  · intro reg c r o
    simp [addController, mapSet_mapSet]
  · intro reg c mws
    simp [addControllerMiddleware, mapSet_mapSet]
  · intro reg ch pa
    simp [addParent, mapSet_mapSet]
  · intro reg c m p hd
    exact addRoute_addRoute reg c m p hd hd
  · intro reg hd mws
    simp [addRouteMiddleware, mapSet_mapSet]
  · intro reg ch pa
    exact ⟨mapGet_mapSet_self _ _ _, rfl⟩
  · intro ops
    exact keysUnique_applyOps ops Registry.empty keysUnique_empty

/-- C1: a controller whose route table entry is absent or empty is skipped
entirely by pass 1: `processController` returns the assembly state untouched
(no router creation, no middleware attachment, no registration or mount
event), and a whole pass-1 run never records a router for it — regardless of
its controller spec, its controller middleware, or it being referenced as
another controller's parent. -/
theorem skipped_controller_untouched (reg : Registry) (c : Ctrl)
    (st st' : P1State) (spec : ControllerSpec)
    (entries : List (Ctrl × ControllerSpec))
    (h : mapGet reg.routeMap c = none ∨ mapGet reg.routeMap c = some []) :
    processController reg st c spec = st ∧
    mapGet (pass1 reg entries st').routerMap c = mapGet st'.routerMap c :=
  ⟨processController_skip reg st c spec h, pass1_routerMap_skip reg c h entries st'⟩

theorem skipped_controller_untouched_witness :
    processController Registry.empty ⟨[], 0, []⟩ 0 ⟨1, none⟩ = ⟨[], 0, []⟩ ∧
    mapGet (pass1 Registry.empty [(0, ⟨1, none⟩)] ⟨[], 0, []⟩).routerMap 0 =
      mapGet (P1State.mk [] 0 []).routerMap 0 :=
  skipped_controller_untouched Registry.empty 0 ⟨[], 0, []⟩ ⟨[], 0, []⟩
    ⟨1, none⟩ [(0, ⟨1, none⟩)] (Or.inl rfl)

/-- C2: in an assembled controller's pass-1 trace the registrations happen in
order: the router is created, the controller-level middleware is registered
globally on it before any route registration, and a handler owning non-empty
route middleware has that middleware registered path-scoped (a
use(path, middleware) call, applying to the path regardless of method)
immediately before the handler's own registration for its method and path —
so a request observes controller middleware, then route middleware, then the
handler. -/
theorem pass1_registration_order (reg : Registry) (st : P1State) (c : Ctrl)
    (spec : ControllerSpec) (rs : RouteSpec) (cmw : List Handler)
    (m : Method) (ms : HttpMethodSpec) (p : Path) (hd : Handler)
    (mws : List Handler)
    (h1 : mapGet reg.routeMap c = some rs) (h2 : rs ≠ [])
    (h3 : mapGet reg.controllerMiddlewareMap c = some cmw)
    (h4 : (m, ms) ∈ rs) (h5 : (p, hd) ∈ ms)
    (h6 : mapGet reg.routeMiddlewareMap hd = some mws) (h7 : mws ≠ []) :
    ∃ l₁ l₂, (processController reg st c spec).events =
      st.events ++ Event.create (RId.fresh st.next) spec.opts ::
        Event.use (RId.fresh st.next) cmw ::
        (l₁ ++ Event.usePath (RId.fresh st.next) p mws ::
          Event.handle (RId.fresh st.next) m p hd :: l₂) := by
  obtain ⟨l₁, l₂, heq⟩ :=
    routeSpecEvents_split reg (RId.fresh st.next) rs m ms p hd mws h4 h5 h6 h7
  refine ⟨l₁, l₂ ++ (if (mapGet reg.parentMap c).isSome then []
    else [Event.mount RId.app spec.root (RId.fresh st.next)]), ?_⟩
  unfold processController
  rw [h1]
  simp only [if_neg h2]
  rw [heq]
  simp [processControllerMiddleware, h3]

theorem pass1_registration_order_witness :
    ∃ l₁ l₂,
      (processController
        { routeMap := [(1, [(0, [(2, 5)])])],
          controllerMap := [(1, ⟨10, none⟩)],
          controllerMiddlewareMap := [(1, [7])],
          routeMiddlewareMap := [(5, [8, 9])],
          routerMap := [], parentMap := [] }
        ⟨[], 0, []⟩ 1 ⟨10, none⟩).events =
      ([] : List Event) ++ Event.create (RId.fresh 0) none ::
        Event.use (RId.fresh 0) [7] ::
        (l₁ ++ Event.usePath (RId.fresh 0) 2 [8, 9] ::
          Event.handle (RId.fresh 0) 0 2 5 :: l₂) :=
  pass1_registration_order _ ⟨[], 0, []⟩ 1 ⟨10, none⟩ [(0, [(2, 5)])] [7]
    0 [(2, 5)] 2 5 [8, 9] rfl (by decide) rfl (by decide) (by decide) rfl
    (by decide)

/-- C3: for an assembled controller (non-empty route table), pass 1 records
its fresh router in the router table; when no parent relation exists for it
at processing time, the final event it emits mounts that router onto the
application router at the controller's stored root; when a parent relation
exists it emits no new mount event at all — mounting is deferred to pass 2. -/
theorem pass1_mount_decision (reg : Registry) (st : P1State) (c : Ctrl)
    (spec : ControllerSpec) (rs : RouteSpec)
    (h1 : mapGet reg.routeMap c = some rs) (h2 : rs ≠ []) :
    mapGet (processController reg st c spec).routerMap c = some (RId.fresh st.next) ∧
    (mapGet reg.parentMap c = none →
      ∃ evs, (processController reg st c spec).events =
        st.events ++ evs ++ [Event.mount RId.app spec.root (RId.fresh st.next)]) ∧
    ((mapGet reg.parentMap c).isSome →
      ∀ tgt pth r, Event.mount tgt pth r ∈ (processController reg st c spec).events →
        Event.mount tgt pth r ∈ st.events) := by
  refine ⟨?_, ?_, ?_⟩
  · unfold processController
    rw [h1]
    simp only [if_neg h2]
    exact mapGet_mapSet_self _ _ _
  · intro hp
    refine ⟨Event.create (RId.fresh st.next) spec.opts ::
      (processControllerMiddleware reg (RId.fresh st.next) c ++
        routeSpecEvents reg (RId.fresh st.next) rs), ?_⟩
    unfold processController
    rw [h1]
    simp only [if_neg h2, hp, Option.isSome_none]
    simp
  · intro hps tgt pth r hmem
    unfold processController at hmem
    rw [h1] at hmem
    simp only [if_neg h2, hps, if_true, List.append_nil, List.mem_append,
      List.mem_cons] at hmem
    rcases hmem with h' | h' | h'' | h''
    · exact h'
    · cases h'
    · rcases mem_processControllerMiddleware reg _ c _ h'' with ⟨mws, -, heq⟩
      cases heq
    · rcases mem_routeSpecEvents reg _ rs _ h'' with ⟨p', mws, heq⟩ | ⟨m', p', hd, heq⟩ <;>
        cases heq

theorem pass1_mount_decision_witness :
    mapGet (processController
      { routeMap := [(1, [(0, [(2, 5)])])],
        controllerMap := [(1, ⟨10, none⟩)],
        controllerMiddlewareMap := [], routeMiddlewareMap := [],
        routerMap := [], parentMap := [] }
      ⟨[], 0, []⟩ 1 ⟨10, none⟩).routerMap 1 = some (RId.fresh 0) :=
  (pass1_mount_decision
    { routeMap := [(1, [(0, [(2, 5)])])],
      controllerMap := [(1, ⟨10, none⟩)],
      controllerMiddlewareMap := [], routeMiddlewareMap := [],
      routerMap := [], parentMap := [] }
    ⟨[], 0, []⟩ 1 ⟨10, none⟩ [(0, [(2, 5)])] rfl (by decide)).1

/-- C4: in pass 2 the parent's router is resolved first — when it is absent
the pair fails with ParentControllerError identifying the child (and parent),
regardless of the child's state, so when both are missing the parent error is
the one raised; when the parent resolves but the child's router is absent the
pair fails with UnregisteredControllerError identifying the child; the first
error short-circuits all remaining pairs of pass 2 and propagates unchanged
out of applyRoutes. -/
theorem pass2_error_semantics (reg : Registry) (rm : List (Ctrl × RId))
    (child parent : Ctrl) (pr : RId) (rest : List (Ctrl × Ctrl)) (e : Err) :
    (mapGet rm parent = none →
      processParents reg rm child parent =
        Except.error (Err.parentController child parent)) ∧
    (mapGet rm parent = some pr → mapGet rm child = none →
      processParents reg rm child parent =
        Except.error (Err.unregisteredController child)) ∧
    (processParents reg rm child parent = Except.error e →
      pass2 reg rm ((child, parent) :: rest) = Except.error e) ∧
    (pass2 reg (pass1 reg reg.controllerMap
        ⟨reg.routerMap, 0, []⟩).routerMap reg.parentMap = Except.error e →
      applyRoutes reg = Except.error e) := by
  refine ⟨?_, ?_, ?_, ?_⟩
  · intro h
    unfold processParents
    rw [h]
  · intro h h'
    unfold processParents
    rw [h, h']
  · intro h
    rw [pass2, h]
  · intro h
    rw [applyRoutes_eq, h]

theorem pass2_error_semantics_witness :
    processParents Registry.empty [] 1 2 =
      Except.error (Err.parentController 1 2) :=
  (pass2_error_semantics Registry.empty [] 1 2 RId.app []
    (Err.parentController 1 2)).1 rfl

/-- C5: in pass 2, when both routers resolve and the parent has a non-empty
controller middleware entry, that middleware is registered globally on the
CHILD's router and then the child's router is mounted onto the parent's
router at the child's stored root path; and every successful applyRoutes
trace is the pass-1 event list followed by the pass-2 event list, so these
pass-2 registrations land after all of the child's own pass-1
registrations (appended last, not run first). -/
theorem pass2_parent_middleware_and_mount (reg reg₂ reg' : Registry)
    (rm : List (Ctrl × RId)) (child parent : Ctrl) (pr cr : RId)
    (spec : ControllerSpec) (mws : List Handler) (evs : List Event) :
    (mapGet rm parent = some pr → mapGet rm child = some cr →
      mapGet reg.controllerMap child = some spec →
      mapGet reg.controllerMiddlewareMap parent = some mws → mws ≠ [] →
      processParents reg rm child parent =
        Except.ok [Event.use cr mws, Event.mount pr spec.root cr]) ∧
    (applyRoutes reg₂ = Except.ok (reg', evs) →
      ∃ l, evs = (pass1 reg₂ reg₂.controllerMap
          ⟨reg₂.routerMap, 0, []⟩).events ++ l ∧
        pass2 reg₂ (pass1 reg₂ reg₂.controllerMap
          ⟨reg₂.routerMap, 0, []⟩).routerMap reg₂.parentMap = Except.ok l) := by
  constructor
  · intro h1 h2 h3 h4 h5
    unfold processParents
    rw [h1, h2, h3, h4]
    simp [h5]
  · intro h
    rw [applyRoutes_eq] at h
    cases hp2 : pass2 reg₂ (pass1 reg₂ reg₂.controllerMap
        ⟨reg₂.routerMap, 0, []⟩).routerMap reg₂.parentMap with
    | error e => rw [hp2] at h; cases h
    | ok l =>
      rw [hp2] at h
      simp only [Except.ok.injEq, Prod.mk.injEq] at h
      exact ⟨l, h.2.symm, rfl⟩

theorem pass2_parent_middleware_and_mount_witness :
    processParents
      { routeMap := [], controllerMap := [(1, ⟨3, none⟩)],
        controllerMiddlewareMap := [(2, [7])], routeMiddlewareMap := [],
        routerMap := [], parentMap := [] }
      [(1, RId.fresh 0), (2, RId.fresh 1)] 1 2 =
      Except.ok [Event.use (RId.fresh 0) [7],
        Event.mount (RId.fresh 1) 3 (RId.fresh 0)] :=
  (pass2_parent_middleware_and_mount
    { routeMap := [], controllerMap := [(1, ⟨3, none⟩)],
      controllerMiddlewareMap := [(2, [7])], routeMiddlewareMap := [],
      routerMap := [], parentMap := [] }
    Registry.empty Registry.empty
    [(1, RId.fresh 0), (2, RId.fresh 1)] 1 2 (RId.fresh 1) (RId.fresh 0)
    ⟨3, none⟩ [7] []).1 rfl rfl rfl rfl (by decide)

/-- Concrete registry for the controller-middleware claim: controller 1 has
root 10, one route (method 0, path 0, handler 5), and a present but EMPTY
controller middleware entry. -/
def regCmwEmpty : Registry :=
  { routeMap := [(1, [(0, [(0, 5)])])],
    controllerMap := [(1, ⟨10, none⟩)],
    controllerMiddlewareMap := [(1, [])],
    routeMiddlewareMap := [], routerMap := [], parentMap := [] }

/-- C7 counterexample: the claim says a present-but-empty controller
middleware entry results in no middleware registration call, but
`processControllerMiddleware` only tests presence of the table entry, so for
`regCmwEmpty` (whose entry for controller 1 is the empty sequence) the
assembly of controller 1 does emit a global use registration call, with the
empty middleware sequence, on the fresh router. -/
theorem controllerMiddleware_empty_entry_cex :
    Event.use (RId.fresh 0) [] ∈
      (processController regCmwEmpty ⟨[], 0, []⟩ 1 ⟨10, none⟩).events := by
  decide

/-- C7 (amended): for an assembled controller, a global middleware
registration call is made on its fresh router exactly when the controller
middleware table has an entry for it: any present entry — even an empty one —
triggers the use call with the stored sequence, and only an absent entry
produces no global use call at all. -/
theorem controllerMiddleware_registration_iff_entry (reg : Registry)
    (st : P1State) (c : Ctrl) (spec : ControllerSpec) (rs : RouteSpec)
    (mws : List Handler)
    (h1 : mapGet reg.routeMap c = some rs) (h2 : rs ≠ []) :
    (mapGet reg.controllerMiddlewareMap c = some mws →
      Event.use (RId.fresh st.next) mws ∈
        (processController reg st c spec).events) ∧
    (mapGet reg.controllerMiddlewareMap c = none →
      Event.use (RId.fresh st.next) mws ∈
        (processController reg st c spec).events →
      Event.use (RId.fresh st.next) mws ∈ st.events) := by
  constructor
  · intro h3
    unfold processController
    rw [h1]
    simp only [if_neg h2]
    simp [processControllerMiddleware, h3]
  · intro h3 hmem
    unfold processController at hmem
    rw [h1] at hmem
    simp only [if_neg h2] at hmem
    simp only [processControllerMiddleware, h3, List.nil_append,
      List.mem_append, List.mem_cons] at hmem
    rcases hmem with h' | h' | h'' | h''
    · exact h'
    · cases h'
    · rcases mem_routeSpecEvents reg _ rs _ h'' with ⟨p', mws', heq⟩ | ⟨m', p', hd, heq⟩ <;>
        cases heq
    · by_cases hps : (mapGet reg.parentMap c).isSome
      · simp only [hps, if_true] at h''
        cases h''
      · simp only [hps, if_false] at h''
        rcases List.mem_singleton.mp h'' with heq
        cases heq

theorem controllerMiddleware_registration_iff_entry_witness :
    Event.use (RId.fresh 0) [7, 8] ∈
      (processController
        { routeMap := [(1, [(0, [(0, 5)])])],
          controllerMap := [(1, ⟨10, none⟩)],
          controllerMiddlewareMap := [(1, [7, 8])],
          routeMiddlewareMap := [], routerMap := [], parentMap := [] }
        ⟨[], 0, []⟩ 1 ⟨10, none⟩).events :=
  (controllerMiddleware_registration_iff_entry
    { routeMap := [(1, [(0, [(0, 5)])])],
      controllerMap := [(1, ⟨10, none⟩)],
      controllerMiddlewareMap := [(1, [7, 8])],
      routeMiddlewareMap := [], routerMap := [], parentMap := [] }
    ⟨[], 0, []⟩ 1 ⟨10, none⟩ [(0, [(0, 5)])] [7, 8] rfl (by decide)).1 rfl

/-- C10: when every controller with a recorded router also has a controller
spec entry — true in particular at process start, where the router table is
empty, and preserved because pass 1 only ever creates routers for keys taken
from the controller table — an applyRoutes run can never fail by reading a
missing controller spec for a resolved child in pass 2: the unchecked spec
lookup always succeeds. -/
theorem routerMap_covered_spec_lookup_safe (reg : Registry) (c : Ctrl)
    (h : ∀ k, (mapGet reg.routerMap k).isSome →
      (mapGet reg.controllerMap k).isSome) :
    applyRoutes reg ≠ Except.error (Err.missingControllerSpec c) := by
  rw [applyRoutes_eq]
  have hinv : ∀ k, (mapGet (pass1 reg reg.controllerMap
      ⟨reg.routerMap, 0, []⟩).routerMap k).isSome →
      (mapGet reg.controllerMap k).isSome := by
    refine pass1_inv reg reg.controllerMap ⟨reg.routerMap, 0, []⟩ ?_ h
    intro e he
    exact mapGet_isSome_of_mem _ e.1 e.2 (by simpa using he)
  cases hp2 : pass2 reg (pass1 reg reg.controllerMap
      ⟨reg.routerMap, 0, []⟩).routerMap reg.parentMap with
  | error e =>
    intro hcon
    have he : e = Err.missingControllerSpec c := by simpa using hcon
    exact pass2_no_missing reg _ c hinv reg.parentMap (he ▸ hp2)
  | ok l => simp

theorem routerMap_covered_spec_lookup_safe_witness :
    applyRoutes Registry.empty ≠
      Except.error (Err.missingControllerSpec 0) :=
  routerMap_covered_spec_lookup_safe Registry.empty 0
    (fun k hk => by simp [Registry.empty, mapGet] at hk)

end EDR

